import Mathlib

/-!
# Football Rotation Manager — verification of the rotation scheduler

Shallow embedding of the rotation/scheduling state machine of the
football rotation frontend.  The React component keeps a `GameState`
value (here a structure) and exposes the operations `startNewGame`,
`getNextMatch`, `handleDrawTeamSelection` and `recordResult`; the
surrounding component state (the team-count input and the error
display) is modelled by `AppState`.  Each Lean definition mirrors the
corresponding source function; theorems below settle the spec claims.
-/

namespace FootballRotation

/-- Result of a match, as in the source union type
team1_win | team2_win | draw. -/
inductive MatchResult
  | team1_win : MatchResult
  | team2_win : MatchResult
  | draw : MatchResult
deriving DecidableEq

/-- A completed (or in-progress) match record, mirroring `interface Match`. -/
structure Match where
  match_number : Nat
  team1 : Nat
  team2 : Nat
  result : Option MatchResult
deriving DecidableEq

/-- Per-pair draw bookkeeping, mirroring `interface DrawTracker`. -/
structure DrawTracker where
  team1 : Nat
  team2 : Nat
  nextToPlay : Nat
deriving DecidableEq

/-- The session state, mirroring `interface GameState`. -/
structure GameState where
  total_teams : Nat
  current_match : Option (Nat × Nat)
  waiting_queue : List Nat
  match_history : List Match
  match_counter : Nat
  draw_trackers : List DrawTracker
deriving DecidableEq

/-- The component-level state around the session: the session itself
(`gameState`, absent before initialization) and the error display
(`error`, set by `setError`). -/
structure AppState where
  gameState : Option GameState
  error : Option String
deriving DecidableEq

/-- The list of team ids `[1, 2, ..., n]`, as built by
`Array.from(\x7b length: teams \x7d, (_, i) => i + 1)` in `startNewGame`. -/
def teamIds (n : Nat) : List Nat :=
  (List.range n).map (fun i => i + 1)

/-- The error message of `startNewGame` for an out-of-range team count. -/
def validationMsg : String := "Please enter between 3 and 20 teams"

/-- The error message of `getNextMatch` for a too-short queue. -/
def insufficientMsg : String := "Not enough teams in queue to start a match"

/-- `startNewGame`, from the source: the team-count input (`''` is the
`none` case) defaults to 3, out-of-range counts set the validation
error and create no session, otherwise a fresh session is created. -/
def startNewGame (totalTeams : Option Int) : Except String GameState :=
  let teams := totalTeams.getD 3
  if teams < 3 ∨ teams > 20 then
    Except.error validationMsg
  else
    Except.ok
      { total_teams := teams.toNat
        current_match := none
        waiting_queue := (List.range teams.toNat).map (fun i => i + 1)
        match_history := []
        match_counter := 0
        draw_trackers := [] }

/-- `incrementTeams`, from the source: empty input counts as 3;
increment only below the cap of 20. -/
def incrementTeams (totalTeams : Option Int) : Option Int :=
  let current := totalTeams.getD 3
  if current < 20 then some (current + 1) else totalTeams

/-- `decrementTeams`, from the source: empty input counts as 3;
decrement only above the floor of 3. -/
def decrementTeams (totalTeams : Option Int) : Option Int :=
  let current := totalTeams.getD 3
  if current > 3 then some (current - 1) else totalTeams

/-- `getNextMatch`, from the source: with fewer than two queued teams it
only sets the error message; otherwise the first two queued teams
become the current match (the source performs
`const [team1, team2, ...remainingQueue] = waiting_queue` exactly when
`waiting_queue.length >= 2`, which is the first branch below).  The
second component is the new value of the error display (`setError`).
Note the source never checks `current_match` here. -/
def getNextMatch (gs : GameState) : GameState × Option String :=
  match gs.waiting_queue with
  | team1 :: team2 :: remainingQueue =>
      ({ gs with current_match := some (team1, team2)
                 waiting_queue := remainingQueue }, none)
  | _ => (gs, some insufficientMsg)

/-- The predicate of the `findIndex` call in `handleDrawTeamSelection`:
the tracker stores this unordered pair. -/
def trackerMatches (dt : DrawTracker) (a b : Nat) : Bool :=
  (dt.team1 == a && dt.team2 == b) || (dt.team1 == b && dt.team2 == a)

/-- The linear scan of `draw_trackers.findIndex(...)`, returning the
first tracker for the unordered pair, if any. -/
def findTracker : List DrawTracker → Nat → Nat → Option DrawTracker
  | [], _, _ => none
  | dt :: rest, a, b =>
      if trackerMatches dt a b then some dt else findTracker rest a b

/-- The in-place toggle of `tracker.nextToPlay` in
`handleDrawTeamSelection`. -/
def toggleTracker (dt : DrawTracker) : DrawTracker :=
  { dt with nextToPlay := if dt.nextToPlay = dt.team1 then dt.team2 else dt.team1 }

/-- `handleDrawTeamSelection`, from the source.  The source scans with
`findIndex`; on a miss it pushes a fresh canonical tracker (lower id as
`team1`, `nextToPlay` the higher id) at the end and returns the lower
id; on a hit it returns the stored `nextToPlay` and toggles it in
place.  The recursion below performs the same first-match scan, keeps
earlier entries, toggles the first hit in place and appends the fresh
tracker at the end on a global miss. -/
def handleDrawTeamSelection : List DrawTracker → Nat → Nat → Nat × List DrawTracker
  | [], team1, team2 =>
      let lowerTeam := min team1 team2
      let higherTeam := max team1 team2
      (lowerTeam, [{ team1 := lowerTeam, team2 := higherTeam, nextToPlay := higherTeam }])
  | dt :: rest, team1, team2 =>
      if trackerMatches dt team1 team2 then
        (dt.nextToPlay, toggleTracker dt :: rest)
      else
        let r := handleDrawTeamSelection rest team1 team2
        (r.1, dt :: r.2)

/-- `recordResult`, from the source: with no current match it silently
returns the unchanged state; otherwise it builds the match record with
the original labels, reorders the queue according to the result, clears
the current match and bumps the counter. -/
def recordResult (gs : GameState) (result : MatchResult) : GameState :=
  match gs.current_match with
  | none => gs
  | some (team1, team2) =>
    let newMatchNumber := gs.match_counter + 1
    let m : Match :=
      { match_number := newMatchNumber, team1 := team1, team2 := team2
        result := some result }
    match result with
    | MatchResult.team1_win =>
        { gs with current_match := none
                  waiting_queue := team1 :: gs.waiting_queue ++ [team2]
                  match_history := gs.match_history ++ [m]
                  match_counter := newMatchNumber }
    | MatchResult.team2_win =>
        { gs with current_match := none
                  waiting_queue := team2 :: gs.waiting_queue ++ [team1]
                  match_history := gs.match_history ++ [m]
                  match_counter := newMatchNumber }
    | MatchResult.draw =>
        let sel := handleDrawTeamSelection gs.draw_trackers team1 team2
        let firstToPlay := sel.1
        let secondToPlay := if firstToPlay = team1 then team2 else team1
        { gs with current_match := none
                  waiting_queue := gs.waiting_queue ++ [firstToPlay, secondToPlay]
                  match_history := gs.match_history ++ [m]
                  match_counter := newMatchNumber
                  draw_trackers := sel.2 }

/-- Component-level `getNextMatch`: absent session is a silent return;
otherwise the session and the error display are updated (on failure the
session value is unchanged and only the error is set, which the pair
returned by `getNextMatch` captures). -/
def getNextMatchApp (s : AppState) : AppState :=
  match s.gameState with
  | none => s
  | some gs =>
      let r := getNextMatch gs
      { gameState := some r.1, error := r.2 }

/-- Component-level `recordResult`: absent session or absent current
match is a silent `return` — neither the session nor the error display
changes; otherwise the session is updated and the error cleared. -/
def recordResultApp (s : AppState) (result : MatchResult) : AppState :=
  match s.gameState with
  | none => s
  | some gs =>
    match gs.current_match with
    | none => s
    | some _ => { gameState := some (recordResult gs result), error := none }

/-- An operation of the engine once a session exists: a draw of the
next match or the recording of a result. -/
inductive Op
  | draw : Op
  | record : MatchResult → Op
deriving DecidableEq

/-- One engine step on the session state (error display ignored). -/
def applyOp (gs : GameState) : Op → GameState
  | Op.draw => (getNextMatch gs).1
  | Op.record r => recordResult gs r

/-- Run a sequence of operations. -/
def runOps : GameState → List Op → GameState
  | gs, [] => gs
  | gs, op :: ops => runOps (applyOp gs op) ops

/-- The teams of the current match as a list. -/
def matchTeams : Option (Nat × Nat) → List Nat
  | none => []
  | some (a, b) => [a, b]

/-- All team ids present in the observable state: the waiting queue
followed by the current match pair, if any. -/
def teamsOf (gs : GameState) : List Nat :=
  gs.waiting_queue ++ matchTeams gs.current_match

/-- Whether an operation respects the UI guard: the draw button is
rendered only while no match is in progress. -/
def opAllowed (gs : GameState) : Op → Bool
  | Op.draw => gs.current_match.isNone
  | Op.record _ => true

/-- A run in which every draw is performed with no match in progress,
as the UI enforces by disabling the button. -/
def guardedRun : GameState → List Op → Bool
  | _, [] => true
  | gs, op :: ops => opAllowed gs op && guardedRun (applyOp gs op) ops

end FootballRotation

namespace FootballRotation

/-! ## Basic lemmas about the draw-tracker scan -/

lemma trackerMatches_toggle (dt : DrawTracker) (a b : Nat) :
    trackerMatches (toggleTracker dt) a b = trackerMatches dt a b := rfl

lemma trackerKey_toggle (dt : DrawTracker) :
    (toggleTracker dt).team1 = dt.team1 ∧ (toggleTracker dt).team2 = dt.team2 :=
  ⟨rfl, rfl⟩

lemma findTracker_eq_none (ts : List DrawTracker) (a b : Nat) :
    findTracker ts a b = none ↔ ∀ dt ∈ ts, trackerMatches dt a b = false := by
  induction ts with
  | nil => simp [findTracker]
  | cons dt rest ih =>
      cases h : trackerMatches dt a b <;> simp [findTracker, h, ih]

lemma findTracker_mem (ts : List DrawTracker) (a b : Nat) (dt : DrawTracker)
    (h : findTracker ts a b = some dt) :
    dt ∈ ts ∧ trackerMatches dt a b = true := by
  induction ts with
  | nil => simp [findTracker] at h
  | cons dt0 rest ih =>
      cases h0 : trackerMatches dt0 a b with
      | true =>
          rw [findTracker, if_pos h0] at h
          obtain rfl : dt0 = dt := by injection h
          exact ⟨List.mem_cons_self _ _, h0⟩
      | false =>
          rw [findTracker, if_neg (by simp [h0])] at h
          obtain ⟨hm, hmt⟩ := ih h
          exact ⟨List.mem_cons_of_mem _ hm, hmt⟩

lemma trackerMatches_comm (dt : DrawTracker) (a b : Nat) :
    trackerMatches dt a b = trackerMatches dt b a := by
  simp only [trackerMatches]
  exact Bool.or_comm _ _

lemma findTracker_comm (ts : List DrawTracker) (a b : Nat) :
    findTracker ts a b = findTracker ts b a := by
  induction ts with
  | nil => rfl
  | cons dt rest ih =>
      rw [findTracker, findTracker, trackerMatches_comm, ih]

lemma findTracker_minmax (ts : List DrawTracker) (a b : Nat) :
    findTracker ts a b = findTracker ts (min a b) (max a b) := by
  rcases le_total a b with h | h
  · rw [Nat.min_eq_left h, Nat.max_eq_right h]
  · rw [Nat.min_eq_right h, Nat.max_eq_left h, findTracker_comm]

lemma findTracker_append (l r : List DrawTracker) (a b : Nat) :
    findTracker (l ++ r) a b =
      match findTracker l a b with
      | some dt => some dt
      | none => findTracker r a b := by
  induction l with
  | nil => simp [findTracker]
  | cons dt rest ih =>
      cases h : trackerMatches dt a b <;> simp [findTracker, h, ih]

lemma findTracker_some_split (ts : List DrawTracker) (a b : Nat) (dt : DrawTracker)
    (h : findTracker ts a b = some dt) :
    ∃ l r, ts = l ++ dt :: r ∧ findTracker l a b = none ∧
      handleDrawTeamSelection ts a b = (dt.nextToPlay, l ++ toggleTracker dt :: r) := by
  induction ts with
  | nil => simp [findTracker] at h
  | cons dt0 rest ih =>
      cases h0 : trackerMatches dt0 a b with
      | true =>
          rw [findTracker, if_pos h0] at h
          obtain rfl : dt0 = dt := by injection h
          refine ⟨[], rest, rfl, rfl, ?_⟩
          rw [handleDrawTeamSelection, if_pos h0]
          rfl
      | false =>
          rw [findTracker, if_neg (by simp [h0])] at h
          obtain ⟨l, r, hts, hl, hh⟩ := ih h
          refine ⟨dt0 :: l, r, by rw [hts]; rfl, ?_, ?_⟩
          · rw [findTracker, if_neg (by simp [h0]), hl]
          · rw [handleDrawTeamSelection, if_neg (by simp [h0]), hh]
            rfl

lemma findTracker_none_hds (ts : List DrawTracker) (a b : Nat)
    (h : findTracker ts a b = none) :
    handleDrawTeamSelection ts a b =
      (min a b, ts ++ [{ team1 := min a b, team2 := max a b, nextToPlay := max a b }]) := by
  induction ts with
  | nil => rfl
  | cons dt0 rest ih =>
      cases h0 : trackerMatches dt0 a b with
      | true => rw [findTracker, if_pos h0] at h; exact absurd h (by simp)
      | false =>
          rw [findTracker, if_neg (by simp [h0])] at h
          rw [handleDrawTeamSelection, if_neg (by simp [h0]), ih h]
          rfl

lemma minmax_matches (a b c : Nat) :
    trackerMatches { team1 := min a b, team2 := max a b, nextToPlay := c } a b = true := by
  simp only [trackerMatches, Nat.min_def, Nat.max_def]
  split <;> simp

lemma matches_minmax (dt : DrawTracker) (c d : Nat)
    (h : trackerMatches dt c d = true) :
    min c d = min dt.team1 dt.team2 ∧ max c d = max dt.team1 dt.team2 := by
  simp only [trackerMatches, Bool.or_eq_true, Bool.and_eq_true, beq_iff_eq] at h
  rcases h with ⟨h1, h2⟩ | ⟨h1, h2⟩
  · rw [← h1, ← h2]; exact ⟨rfl, rfl⟩
  · rw [← h1, ← h2]; exact ⟨Nat.min_comm _ _, Nat.max_comm _ _⟩

lemma findTracker_hds_self_none (ts : List DrawTracker) (a b : Nat)
    (h : findTracker ts a b = none) :
    findTracker (handleDrawTeamSelection ts a b).2 a b =
      some { team1 := min a b, team2 := max a b, nextToPlay := max a b } := by
  rw [findTracker_none_hds ts a b h, findTracker_append, h]
  rw [findTracker, if_pos (minmax_matches a b _)]

lemma findTracker_hds_self_some (ts : List DrawTracker) (a b : Nat) (dt : DrawTracker)
    (h : findTracker ts a b = some dt) :
    findTracker (handleDrawTeamSelection ts a b).2 a b = some (toggleTracker dt) := by
  obtain ⟨l, r, hts, hl, hh⟩ := findTracker_some_split ts a b dt h
  have hmt : trackerMatches dt a b = true := (findTracker_mem ts a b dt h).2
  rw [hh, findTracker_append, hl, findTracker,
    if_pos (by rw [trackerMatches_toggle]; exact hmt)]

lemma findTracker_hds_frame (ts : List DrawTracker) (a b c d : Nat)
    (h : (min c d, max c d) ≠ (min a b, max a b)) :
    findTracker (handleDrawTeamSelection ts a b).2 c d = findTracker ts c d := by
  cases hf : findTracker ts a b with
  | none =>
      rw [findTracker_none_hds ts a b hf, findTracker_append]
      cases h2 : findTracker ts c d with
      | some dt => rfl
      | none =>
          show findTracker [_] c d = none
          cases h3 : trackerMatches
              { team1 := min a b, team2 := max a b, nextToPlay := max a b } c d with
          | true =>
              obtain ⟨hm1, hm2⟩ := matches_minmax _ c d h3
              simp only [min_eq_left min_le_max, max_eq_right min_le_max] at hm1 hm2
              exact absurd (by rw [hm1, hm2]) h
          | false => rw [findTracker, if_neg (by simp [h3])]; rfl
  | some dt =>
      obtain ⟨l, r, hts, hl, hh⟩ := findTracker_some_split ts a b dt hf
      have hmt : trackerMatches dt a b = true := (findTracker_mem ts a b dt hf).2
      rw [hh, hts, findTracker_append, findTracker_append]
      cases findTracker l c d with
      | some dt2 => rfl
      | none =>
          show findTracker (toggleTracker dt :: r) c d = findTracker (dt :: r) c d
          cases h3 : trackerMatches dt c d with
          | true =>
              obtain ⟨hm1, hm2⟩ := matches_minmax dt c d h3
              obtain ⟨hn1, hn2⟩ := matches_minmax dt a b hmt
              exact absurd (by rw [hm1, hm2, hn1, hn2]) h
          | false =>
              rw [findTracker, findTracker, trackerMatches_toggle,
                if_neg (by simp [h3]), if_neg (by simp [h3])]

end FootballRotation

namespace FootballRotation

/-! ## Characterization of the operations -/

lemma getNextMatch_cons (gs : GameState) (t1 t2 : Nat) (rest : List Nat)
    (h : gs.waiting_queue = t1 :: t2 :: rest) :
    getNextMatch gs =
      ({ gs with current_match := some (t1, t2), waiting_queue := rest }, none) := by
  rw [getNextMatch, h]

lemma getNextMatch_short (gs : GameState) (h : gs.waiting_queue.length < 2) :
    getNextMatch gs = (gs, some insufficientMsg) := by
  rw [getNextMatch]
  match hq : gs.waiting_queue with
  | [] => rfl
  | [_] => rfl
  | _ :: _ :: _ => rw [hq] at h; simp at h; omega

lemma recordResult_no_match (gs : GameState) (r : MatchResult)
    (h : gs.current_match = none) : recordResult gs r = gs := by
  rw [recordResult, h]

lemma recordResult_team1_win (gs : GameState) (t1 t2 : Nat)
    (h : gs.current_match = some (t1, t2)) :
    recordResult gs MatchResult.team1_win =
      { gs with current_match := none
                waiting_queue := t1 :: gs.waiting_queue ++ [t2]
                match_history := gs.match_history ++
                  [{ match_number := gs.match_counter + 1, team1 := t1, team2 := t2
                     result := some MatchResult.team1_win }]
                match_counter := gs.match_counter + 1 } := by
  rw [recordResult, h]

lemma recordResult_team2_win (gs : GameState) (t1 t2 : Nat)
    (h : gs.current_match = some (t1, t2)) :
    recordResult gs MatchResult.team2_win =
      { gs with current_match := none
                waiting_queue := t2 :: gs.waiting_queue ++ [t1]
                match_history := gs.match_history ++
                  [{ match_number := gs.match_counter + 1, team1 := t1, team2 := t2
                     result := some MatchResult.team2_win }]
                match_counter := gs.match_counter + 1 } := by
  rw [recordResult, h]

lemma recordResult_draw (gs : GameState) (t1 t2 : Nat)
    (h : gs.current_match = some (t1, t2)) :
    recordResult gs MatchResult.draw =
      { gs with current_match := none
                waiting_queue := gs.waiting_queue ++
                  [(handleDrawTeamSelection gs.draw_trackers t1 t2).1,
                   if (handleDrawTeamSelection gs.draw_trackers t1 t2).1 = t1 then t2 else t1]
                match_history := gs.match_history ++
                  [{ match_number := gs.match_counter + 1, team1 := t1, team2 := t2
                     result := some MatchResult.draw }]
                match_counter := gs.match_counter + 1
                draw_trackers := (handleDrawTeamSelection gs.draw_trackers t1 t2).2 } := by
  rw [recordResult, h]

/-- If the first team scheduled after a fresh draw is the lower id, the
second scheduled one is the higher id. -/
lemma min_then_other (t1 t2 : Nat) :
    (if min t1 t2 = t1 then t2 else t1) = max t1 t2 := by
  rw [Nat.min_def, Nat.max_def]
  split
  · simp
  · split <;> omega

/-! ## Concrete states used by witnesses and counterexamples -/

/-- A session of 4 teams with match (1, 2) in progress and queue [3, 4]. -/
def gsMid : GameState :=
  { total_teams := 4, current_match := some (1, 2), waiting_queue := [3, 4]
    match_history := [], match_counter := 0, draw_trackers := [] }

/-- A fresh session of 4 teams, no match in progress. -/
def gsIdle : GameState :=
  { total_teams := 4, current_match := none, waiting_queue := [1, 2, 3, 4]
    match_history := [], match_counter := 0, draw_trackers := [] }

/-- A session of 3 teams, match (3, 1) in progress, one tracker for the
pair (1, 3) whose next-to-play is 3. -/
def gsTracked : GameState :=
  { total_teams := 3, current_match := some (3, 1), waiting_queue := [2]
    match_history := [], match_counter := 0
    draw_trackers := [{ team1 := 1, team2 := 3, nextToPlay := 3 }] }

end FootballRotation

namespace FootballRotation

/-- A 3-team session with match (3, 1) in progress and no tracker yet. -/
def gsFresh31 : GameState :=
  { total_teams := 3, current_match := some (3, 1), waiting_queue := [2]
    match_history := [], match_counter := 0, draw_trackers := [] }

/-- C7: `startNewGame` with a team count outside [3, 20] fails with the
range-message validation error and creates no session; for every count
in [3, 20] it succeeds and produces the ascending queue
`[1, ..., total_teams]`, empty history, counter 0, no trackers and no
current match. -/
theorem c7_start_new_game (t : Int) :
    ((t < 3 ∨ 20 < t) → startNewGame (some t) = Except.error validationMsg) ∧
    (3 ≤ t → t ≤ 20 →
      startNewGame (some t) =
        Except.ok
          { total_teams := t.toNat, current_match := none
            waiting_queue := teamIds t.toNat, match_history := []
            match_counter := 0, draw_trackers := [] }) := by
  constructor
  · intro h
    simp only [startNewGame, Option.getD_some]
    rw [if_pos h]
  · intro h1 h2
    simp only [startNewGame, Option.getD_some]
    rw [if_neg (by omega)]
    rfl

/-- Witness for C7 at the boundary values 21 (rejected) and 3 (accepted). -/
theorem c7_start_new_game_witness :
    startNewGame (some 21) = Except.error validationMsg ∧
    startNewGame (some 3) =
      Except.ok
        { total_teams := 3, current_match := none, waiting_queue := teamIds 3
          match_history := [], match_counter := 0, draw_trackers := [] } :=
  ⟨(c7_start_new_game 21).1 (Or.inr (by decide)), (c7_start_new_game 3).2 (by decide) (by decide)⟩

/-- C10: an empty team-count input is treated as 3: `startNewGame`
succeeds and creates a 3-team session, `incrementTeams` steps the empty
input to 4 (3 + 1), and `decrementTeams` leaves the empty input
unchanged because the substituted 3 is already the lower bound. -/
theorem c10_empty_input_defaults :
    startNewGame none =
      Except.ok
        { total_teams := 3, current_match := none, waiting_queue := [1, 2, 3]
          match_history := [], match_counter := 0, draw_trackers := [] } ∧
    incrementTeams none = some 4 ∧ decrementTeams none = none :=
  ⟨rfl, by decide, by decide⟩

/-- C5: recording `team1_win` puts team1 at the front of the queue and
team2 at the back (symmetric for `team2_win`); in particular from queue
[3, 4] with match (1, 2), `team1_win` yields [1, 3, 4, 2]. -/
theorem c5_win_queue_update (gs : GameState) (t1 t2 : Nat)
    (h : gs.current_match = some (t1, t2)) :
    (recordResult gs MatchResult.team1_win).waiting_queue =
      t1 :: gs.waiting_queue ++ [t2] ∧
    (recordResult gs MatchResult.team2_win).waiting_queue =
      t2 :: gs.waiting_queue ++ [t1] ∧
    (recordResult gsMid MatchResult.team1_win).waiting_queue = [1, 3, 4, 2] := by
  refine ⟨?_, ?_, by decide⟩
  · rw [recordResult_team1_win gs t1 t2 h]
  · rw [recordResult_team2_win gs t1 t2 h]

/-- Witness for C5 at the spec's own example state. -/
theorem c5_win_queue_update_witness :
    (recordResult gsMid MatchResult.team1_win).waiting_queue =
      1 :: gsMid.waiting_queue ++ [2] ∧
    (recordResult gsMid MatchResult.team2_win).waiting_queue =
      2 :: gsMid.waiting_queue ++ [1] ∧
    (recordResult gsMid MatchResult.team1_win).waiting_queue = [1, 3, 4, 2] :=
  c5_win_queue_update gsMid 1 2 rfl

/-- C4 counterexample: with match (1, 2) in progress and queue [3, 4],
`getNextMatch` does not fail: it succeeds, overwrites the current match
with (3, 4) and empties the queue — the claimed precondition on
`current_match` is not checked by the code. -/
theorem c4_busy_draw_cex :
    getNextMatch gsMid =
      ({ total_teams := 4, current_match := some (3, 4), waiting_queue := []
         match_history := [], match_counter := 0, draw_trackers := [] }, none) ∧
    (getNextMatch gsMid).1 ≠ gsMid := by
  exact ⟨rfl, by decide⟩

/-- C4 (amended): `getNextMatch` succeeds if and only if the queue has
at least two entries, regardless of `current_match` (the UI prevents
calls while a match is in progress by hiding the button, but the
function itself does not check); on success it removes the first two
queue entries in order and installs them as the current match, and on a
short queue it fails with the insufficient-teams error message, leaving
the session unchanged. -/
theorem c4_draw_next_match (gs : GameState) :
    (∀ t1 t2 rest, gs.waiting_queue = t1 :: t2 :: rest →
      getNextMatch gs =
        ({ gs with current_match := some (t1, t2), waiting_queue := rest }, none)) ∧
    (gs.waiting_queue.length < 2 → getNextMatch gs = (gs, some insufficientMsg)) :=
  ⟨fun t1 t2 rest h => getNextMatch_cons gs t1 t2 rest h,
   fun h => getNextMatch_short gs h⟩

/-- Witness for C4 (amended): success on a fresh 4-team session, failure
on a single-team queue. -/
theorem c4_draw_next_match_witness :
    getNextMatch gsIdle =
      ({ gsIdle with current_match := some (1, 2), waiting_queue := [3, 4] }, none) ∧
    getNextMatch gsTracked = (gsTracked, some insufficientMsg) :=
  ⟨(c4_draw_next_match gsIdle).1 1 2 [3, 4] rfl,
   (c4_draw_next_match gsTracked).2 (by decide)⟩

/-- C8 counterexample: `recordResult` with no active match leaves the
state unchanged but also signals nothing: the error display stays
`none`, so no NoActiveMatchError-style failure reaches the caller. -/
theorem c8_silent_no_match_cex :
    recordResultApp { gameState := some gsIdle, error := none } MatchResult.team1_win =
      { gameState := some gsIdle, error := none } ∧
    (recordResultApp { gameState := some gsIdle, error := none }
        MatchResult.team1_win).error = none :=
  ⟨rfl, rfl⟩

/-- C8 (amended): failing operations are atomic: `getNextMatch` on a
queue shorter than 2 leaves the session unchanged and only sets the
error message, and `recordResult` with no current match silently
returns, leaving both the session and the error display unchanged (no
error is signaled to the caller). -/
theorem c8_atomic_failures (s : AppState) (gs : GameState) (r : MatchResult)
    (h : s.gameState = some gs) :
    (gs.waiting_queue.length < 2 →
      getNextMatchApp s = { gameState := some gs, error := some insufficientMsg }) ∧
    (gs.current_match = none → recordResultApp s r = s) := by
  constructor
  · intro hl
    simp only [getNextMatchApp, h, getNextMatch_short gs hl]
  · intro hm
    simp only [recordResultApp, h, hm]

/-- Witness for C8 (amended): a short queue with a stale error display,
and a no-match state with a stale error display. -/
theorem c8_atomic_failures_witness :
    getNextMatchApp { gameState := some gsTracked, error := none } =
      { gameState := some gsTracked, error := some insufficientMsg } ∧
    recordResultApp { gameState := some gsIdle, error := some validationMsg }
        MatchResult.draw =
      { gameState := some gsIdle, error := some validationMsg } :=
  ⟨(c8_atomic_failures { gameState := some gsTracked, error := none } gsTracked
      MatchResult.draw rfl).1 (by decide),
   (c8_atomic_failures { gameState := some gsIdle, error := some validationMsg } gsIdle
      MatchResult.draw rfl).2 rfl⟩

end FootballRotation

namespace FootballRotation

/-- C2: recording a draw for the current pair: with no tracker for the
unordered pair, the lower-numbered team is appended first and the
higher second, and the created tracker's `nextToPlay` is the higher
team; with an existing (well-formed) tracker, the stored `nextToPlay`
team is appended first, the other team of the pair second, and
`nextToPlay` is toggled to the other team of the pair. -/
theorem c2_draw_tiebreak (gs : GameState) (t1 t2 : Nat)
    (h : gs.current_match = some (t1, t2)) :
    (findTracker gs.draw_trackers t1 t2 = none →
      (recordResult gs MatchResult.draw).waiting_queue =
        gs.waiting_queue ++ [min t1 t2, max t1 t2] ∧
      (recordResult gs MatchResult.draw).draw_trackers =
        gs.draw_trackers ++
          [{ team1 := min t1 t2, team2 := max t1 t2, nextToPlay := max t1 t2 }]) ∧
    (∀ dt, findTracker gs.draw_trackers t1 t2 = some dt →
      (dt.nextToPlay = dt.team1 ∨ dt.nextToPlay = dt.team2) → t1 ≠ t2 →
      (recordResult gs MatchResult.draw).waiting_queue =
        gs.waiting_queue ++ [dt.nextToPlay, if dt.nextToPlay = t1 then t2 else t1] ∧
      findTracker (recordResult gs MatchResult.draw).draw_trackers t1 t2 =
        some { team1 := dt.team1, team2 := dt.team2
               nextToPlay := if dt.nextToPlay = t1 then t2 else t1 }) := by
  constructor
  · intro hf
    rw [recordResult_draw gs t1 t2 h]
    constructor
    · show gs.waiting_queue ++ [_, _] = _
      rw [findTracker_none_hds _ _ _ hf]
      rw [min_then_other]
    · show (handleDrawTeamSelection gs.draw_trackers t1 t2).2 = _
      rw [findTracker_none_hds _ _ _ hf]
  · intro dt hf hwf hne
    have hfirst : (handleDrawTeamSelection gs.draw_trackers t1 t2).1 = dt.nextToPlay := by
      obtain ⟨l, r2, hts, hl, hh⟩ := findTracker_some_split _ _ _ _ hf
      rw [hh]
    have hmt : trackerMatches dt t1 t2 = true := (findTracker_mem _ _ _ _ hf).2
    have hm2 : (dt.team1 = t1 ∧ dt.team2 = t2) ∨ (dt.team1 = t2 ∧ dt.team2 = t1) := by
      simpa only [trackerMatches, Bool.or_eq_true, Bool.and_eq_true, beq_iff_eq] using hmt
    have hite : (if dt.nextToPlay = dt.team1 then dt.team2 else dt.team1)
        = (if dt.nextToPlay = t1 then t2 else t1) := by
      rcases hm2 with ⟨e1, e2⟩ | ⟨e1, e2⟩
      · rw [e1, e2]
      · rw [e1, e2]
        rcases hwf with hp | hp
        · rw [e1] at hp
          simp [hp, Ne.symm hne]
        · rw [e2] at hp
          simp [hp, hne]
    constructor
    · rw [recordResult_draw gs t1 t2 h]
      show gs.waiting_queue ++ [_, _] = _
      rw [hfirst]
    · rw [recordResult_draw gs t1 t2 h]
      show findTracker (handleDrawTeamSelection gs.draw_trackers t1 t2).2 t1 t2 = _
      rw [findTracker_hds_self_some _ _ _ _ hf]
      simp only [toggleTracker, hite]

/-- Witness for C2: the spec's own draw examples — a fresh pair (3, 1)
schedules the lower team 1 first and creates tracker (1, 3, next 3);
the tracked pair then schedules 3 first and toggles back to 1. -/
theorem c2_draw_tiebreak_witness :
    ((recordResult gsFresh31 MatchResult.draw).waiting_queue = [2, 1, 3] ∧
     (recordResult gsFresh31 MatchResult.draw).draw_trackers =
       [{ team1 := 1, team2 := 3, nextToPlay := 3 }]) ∧
    ((recordResult gsTracked MatchResult.draw).waiting_queue = [2, 3, 1] ∧
     findTracker (recordResult gsTracked MatchResult.draw).draw_trackers 3 1 =
       some { team1 := 1, team2 := 3, nextToPlay := 1 }) :=
  ⟨(c2_draw_tiebreak gsFresh31 3 1 rfl).1 rfl,
   (c2_draw_tiebreak gsTracked 3 1 rfl).2 { team1 := 1, team2 := 3, nextToPlay := 3 } rfl
     (Or.inr rfl) (by decide)⟩

end FootballRotation

namespace FootballRotation

/-! ## Ghost draw-event log and the reachable-state invariant

A draw event records the canonical pair (lower id, higher id) of the
drawn match together with the team scheduled to re-enter the queue
first.  The log is a ghost construction: it does not change any state,
it only observes each draw as it is recorded. -/

/-- The draw events emitted by one operation: recording a draw while a
match is in progress emits one event, everything else emits none. -/
def drawEvents (gs : GameState) : Op → List (Nat × Nat × Nat)
  | Op.record MatchResult.draw =>
      match gs.current_match with
      | some (t1, t2) =>
          [(min t1 t2, max t1 t2, (handleDrawTeamSelection gs.draw_trackers t1 t2).1)]
      | none => []
  | _ => []

/-- The draw-event log of a run. -/
def runLog : GameState → List Op → List (Nat × Nat × Nat)
  | _, [] => []
  | gs, op :: ops => drawEvents gs op ++ runLog (applyOp gs op) ops

/-- The events of the log belonging to the canonical pair (a, b). -/
def pairEvents (a b : Nat) (log : List (Nat × Nat × Nat)) : List (Nat × Nat × Nat) :=
  log.filter (fun e => e.1 == a && e.2.1 == b)

/-- The first-to-play teams recorded for the pair (a, b), in order. -/
def pairFirsts (a b : Nat) (log : List (Nat × Nat × Nat)) : List Nat :=
  (pairEvents a b log).map (fun e => e.2.2)

/-- How many draws of the pair (a, b) the log contains. -/
def pairCount (a b : Nat) (log : List (Nat × Nat × Nat)) : Nat :=
  (pairEvents a b log).length

/-- The strictly alternating first-to-play sequence of length k starting
with the lower team a: a, b, a, b, ... -/
def altFirsts (a b k : Nat) : List Nat :=
  (List.range k).map (fun i => if i % 2 = 0 then a else b)

/-- The tracker value for the pair (a, b) after k draws: absent before
the first draw, then the higher team after an odd number of draws and
the lower one after an even number. -/
def pairNextVal (a b k : Nat) : Option Nat :=
  if k = 0 then none else some (if k % 2 = 1 then b else a)

/-- The session produced by a successful initialization with n teams. -/
def initialState (n : Nat) : GameState :=
  { total_teams := n, current_match := none, waiting_queue := teamIds n
    match_history := [], match_counter := 0, draw_trackers := [] }

/-- The invariant tying a reachable session state to its draw-event
log.  n is the team count of the session. -/
structure Inv (n : Nat) (gs : GameState) (log : List (Nat × Nat × Nat)) : Prop where
  teams_nodup : (teamsOf gs).Nodup
  teams_sub : ∀ t ∈ teamsOf gs, t ∈ teamIds n
  tracker_wf : ∀ dt ∈ gs.draw_trackers,
    dt.team1 < dt.team2 ∧ dt.team1 ∈ teamIds n ∧ dt.team2 ∈ teamIds n ∧
      (dt.nextToPlay = dt.team1 ∨ dt.nextToPlay = dt.team2)
  keys_nodup : (gs.draw_trackers.map (fun dt => (dt.team1, dt.team2))).Nodup
  hist_len : gs.match_history.length = gs.match_counter
  hist_nums : gs.match_history.map (fun m => m.match_number) = teamIds gs.match_counter
  alt : ∀ a b, a < b → pairFirsts a b log = altFirsts a b (pairCount a b log)
  nextv : ∀ a b, a < b →
    (findTracker gs.draw_trackers a b).map (fun dt => dt.nextToPlay)
      = pairNextVal a b (pairCount a b log)

lemma teamIds_nodup (n : Nat) : (teamIds n).Nodup :=
  (List.nodup_range n).map (fun i j h => by omega)

lemma teamIds_succ (k : Nat) : teamIds (k + 1) = teamIds k ++ [k + 1] := by
  simp [teamIds, List.range_succ]

lemma startNewGame_ok_shape (o : Option Int) (g : GameState)
    (h : startNewGame o = Except.ok g) : g = initialState g.total_teams := by
  by_cases hc : (o.getD 3 : Int) < 3 ∨ (o.getD 3 : Int) > 20
  · simp only [startNewGame, if_pos hc] at h
    exact Except.noConfusion h
  · simp only [startNewGame, if_neg hc] at h
    injection h with h2
    subst h2
    rfl

lemma inv_initial (n : Nat) : Inv n (initialState n) [] := by
  refine ⟨?_, ?_, ?_, ?_, ?_, ?_, ?_, ?_⟩
  · simpa [teamsOf, initialState, matchTeams] using teamIds_nodup n
  · intro t ht
    simpa [teamsOf, initialState, matchTeams] using ht
  · intro dt hdt; simp [initialState] at hdt
  · simp [initialState]
  · simp [initialState]
  · simp [initialState, teamIds]
  · intro a b _; simp [pairFirsts, pairEvents, pairCount, altFirsts]
  · intro a b _; simp [initialState, findTracker, pairNextVal, pairCount, pairEvents]

end FootballRotation

namespace FootballRotation

/-! ## Helper lemmas for invariant preservation -/

lemma toggleTracker_fields (dt : DrawTracker) :
    (toggleTracker dt).team1 = dt.team1 ∧ (toggleTracker dt).team2 = dt.team2 ∧
      ((toggleTracker dt).nextToPlay = dt.team1 ∨ (toggleTracker dt).nextToPlay = dt.team2) := by
  refine ⟨rfl, rfl, ?_⟩
  unfold toggleTracker
  dsimp only
  split
  · exact Or.inr rfl
  · exact Or.inl rfl

lemma matches_of_key_minmax (dt : DrawTracker) (t1 t2 : Nat)
    (h1 : dt.team1 = min t1 t2) (h2 : dt.team2 = max t1 t2) :
    trackerMatches dt t1 t2 = true := by
  simp only [trackerMatches, Bool.or_eq_true, Bool.and_eq_true, beq_iff_eq]
  rcases le_total t1 t2 with h | h
  · exact Or.inl ⟨by rw [h1, Nat.min_eq_left h], by rw [h2, Nat.max_eq_right h]⟩
  · exact Or.inr ⟨by rw [h1, Nat.min_eq_right h], by rw [h2, Nat.max_eq_left h]⟩

/-- The canonical key of the first tracker found for a pair, given that
its two ids are ordered. -/
lemma findTracker_canonical_key (ts : List DrawTracker) (t1 t2 : Nat) (dt : DrawTracker)
    (h : findTracker ts t1 t2 = some dt) (hlt : dt.team1 < dt.team2) :
    dt.team1 = min t1 t2 ∧ dt.team2 = max t1 t2 := by
  have hmt := (findTracker_mem ts t1 t2 dt h).2
  obtain ⟨hm1, hm2⟩ := matches_minmax dt t1 t2 hmt
  rw [min_eq_left (le_of_lt hlt)] at hm1
  rw [max_eq_right (le_of_lt hlt)] at hm2
  exact ⟨hm1.symm, hm2.symm⟩

/-- Every tracker in the result of `handleDrawTeamSelection` is an old
tracker, a toggled old tracker, or the freshly created canonical one. -/
lemma hds_mem (ts : List DrawTracker) (a b : Nat) :
    ∀ x ∈ (handleDrawTeamSelection ts a b).2,
      x ∈ ts ∨ (∃ dt ∈ ts, x = toggleTracker dt) ∨
        x = { team1 := min a b, team2 := max a b, nextToPlay := max a b } := by
  cases hf : findTracker ts a b with
  | none =>
      rw [findTracker_none_hds ts a b hf]
      intro x hx
      rcases List.mem_append.mp hx with hx | hx
      · exact Or.inl hx
      · simp at hx
        exact Or.inr (Or.inr hx)
  | some dt0 =>
      obtain ⟨l, r, hts, hl, hh⟩ := findTracker_some_split ts a b dt0 hf
      rw [hh]
      intro x hx
      dsimp only at hx
      rcases List.mem_append.mp hx with hx | hx
      · exact Or.inl (hts ▸ List.mem_append_left _ hx)
      · rcases List.mem_cons.mp hx with hx | hx
        · exact Or.inr (Or.inl ⟨dt0, hts ▸ List.mem_append_right _ (List.mem_cons_self _ _), hx⟩)
        · exact Or.inl (hts ▸ List.mem_append_right _ (List.mem_cons_of_mem _ hx))

/-- Every old tracker survives `handleDrawTeamSelection`, either intact
or toggled: trackers are never removed. -/
lemma hds_mem_rev (ts : List DrawTracker) (a b : Nat) :
    ∀ dt ∈ ts, dt ∈ (handleDrawTeamSelection ts a b).2 ∨
      toggleTracker dt ∈ (handleDrawTeamSelection ts a b).2 := by
  cases hf : findTracker ts a b with
  | none =>
      rw [findTracker_none_hds ts a b hf]
      intro dt hm
      exact Or.inl (List.mem_append_left _ hm)
  | some dt0 =>
      obtain ⟨l, r, hts, hl, hh⟩ := findTracker_some_split ts a b dt0 hf
      rw [hh]
      intro dt hm
      rw [hts] at hm
      dsimp only
      rcases List.mem_append.mp hm with hm | hm
      · exact Or.inl (List.mem_append_left _ hm)
      · rcases List.mem_cons.mp hm with hm | hm
        · exact Or.inr (by rw [hm]; exact List.mem_append_right _ (List.mem_cons_self _ _))
        · exact Or.inl (List.mem_append_right _ (List.mem_cons_of_mem _ hm))

/-- The tracker keys after `handleDrawTeamSelection`: unchanged on a
hit, extended by the canonical new key on a miss. -/
lemma hds_keys (ts : List DrawTracker) (a b : Nat) :
    ((handleDrawTeamSelection ts a b).2.map (fun dt => (dt.team1, dt.team2))) =
      if findTracker ts a b = none then
        ts.map (fun dt => (dt.team1, dt.team2)) ++ [(min a b, max a b)]
      else ts.map (fun dt => (dt.team1, dt.team2)) := by
  cases hf : findTracker ts a b with
  | none =>
      rw [findTracker_none_hds ts a b hf, if_pos rfl]
      simp
  | some dt0 =>
      obtain ⟨l, r, hts, hl, hh⟩ := findTracker_some_split ts a b dt0 hf
      rw [hh, if_neg (by simp), hts]
      simp
      exact ⟨rfl, rfl⟩

lemma pairEvents_append (a b : Nat) (l1 l2 : List (Nat × Nat × Nat)) :
    pairEvents a b (l1 ++ l2) = pairEvents a b l1 ++ pairEvents a b l2 := by
  simp [pairEvents]

lemma pairEvents_single_self (a b f : Nat) :
    pairEvents a b [(a, b, f)] = [(a, b, f)] := by
  simp [pairEvents]

lemma pairEvents_single_other (a b lo hi f : Nat) (h : ¬(lo = a ∧ hi = b)) :
    pairEvents a b [(lo, hi, f)] = [] := by
  have hp : ((lo == a) && (hi == b)) = false := by
    by_cases h1 : lo = a
    · by_cases h2 : hi = b
      · exact absurd ⟨h1, h2⟩ h
      · simp [h2]
    · simp [h1]
  simp [pairEvents, List.filter_cons, hp]

lemma altFirsts_succ (a b k : Nat) :
    altFirsts a b (k + 1) = altFirsts a b k ++ [if k % 2 = 0 then a else b] := by
  simp [altFirsts, List.range_succ]

lemma pairNextVal_zero_of_none (a b k : Nat) (h : (none : Option Nat) = pairNextVal a b k) :
    k = 0 := by
  by_contra hk
  rw [pairNextVal, if_neg hk] at h
  exact Option.noConfusion h

end FootballRotation

namespace FootballRotation

lemma hds_first_of_some (ts : List DrawTracker) (a b : Nat) (dt : DrawTracker)
    (h : findTracker ts a b = some dt) :
    (handleDrawTeamSelection ts a b).1 = dt.nextToPlay := by
  obtain ⟨l, r, hts, hl, hh⟩ := findTracker_some_split ts a b dt h
  rw [hh]

lemma hds_first_of_none (ts : List DrawTracker) (a b : Nat)
    (h : findTracker ts a b = none) :
    (handleDrawTeamSelection ts a b).1 = min a b := by
  rw [findTracker_none_hds ts a b h]


/-- Preservation of the invariant by recording a draw. -/
lemma inv_step_record_draw (n : Nat) (gs : GameState) (log : List (Nat × Nat × Nat))
    (t1 t2 : Nat) (h : Inv n gs log) (hcm : gs.current_match = some (t1, t2)) :
    Inv n (recordResult gs MatchResult.draw)
      (log ++ [(min t1 t2, max t1 t2, (handleDrawTeamSelection gs.draw_trackers t1 t2).1)]) := by
  have hq2 : teamsOf gs = gs.waiting_queue ++ [t1, t2] := by
    rw [teamsOf, hcm]
    rfl
  have hne : t1 ≠ t2 := by
    have hx := h.teams_nodup
    rw [hq2] at hx
    have hy := hx.of_append_right
    simp at hy
    exact hy
  have hlh : min t1 t2 < max t1 t2 := min_lt_max.mpr hne
  have ht1n : t1 ∈ teamIds n := h.teams_sub t1 (by rw [hq2]; simp)
  have ht2n : t2 ∈ teamIds n := h.teams_sub t2 (by rw [hq2]; simp)
  have hfirst_mem : (handleDrawTeamSelection gs.draw_trackers t1 t2).1 = t1 ∨
      (handleDrawTeamSelection gs.draw_trackers t1 t2).1 = t2 := by
    cases hf : findTracker gs.draw_trackers t1 t2 with
    | none =>
        rw [hds_first_of_none _ _ _ hf]
        exact min_choice t1 t2
    | some dt =>
        rw [hds_first_of_some _ _ _ _ hf]
        have hw := (h.tracker_wf dt (findTracker_mem _ _ _ _ hf).1).2.2.2
        have hmt := (findTracker_mem _ _ _ _ hf).2
        have hm2 : (dt.team1 = t1 ∧ dt.team2 = t2) ∨ (dt.team1 = t2 ∧ dt.team2 = t1) := by
          simpa only [trackerMatches, Bool.or_eq_true, Bool.and_eq_true, beq_iff_eq] using hmt
        rcases hm2 with ⟨e1, e2⟩ | ⟨e1, e2⟩
        · rcases hw with hp | hp
          · exact Or.inl (by rw [hp, e1])
          · exact Or.inr (by rw [hp, e2])
        · rcases hw with hp | hp
          · exact Or.inr (by rw [hp, e1])
          · exact Or.inl (by rw [hp, e2])
  have hpair_perm :
      ([(handleDrawTeamSelection gs.draw_trackers t1 t2).1,
        if (handleDrawTeamSelection gs.draw_trackers t1 t2).1 = t1 then t2 else t1] :
          List Nat).Perm [t1, t2] := by
    rcases hfirst_mem with hf1 | hf1
    · rw [hf1, if_pos rfl]
    · rw [hf1, if_neg (fun hx => hne hx.symm)]
      exact List.Perm.swap t1 t2 []
  have hcount : pairCount (min t1 t2) (max t1 t2)
      (log ++ [(min t1 t2, max t1 t2, (handleDrawTeamSelection gs.draw_trackers t1 t2).1)]) =
      pairCount (min t1 t2) (max t1 t2) log + 1 := by
    rw [pairCount, pairEvents_append, pairEvents_single_self, List.length_append]
    rfl
  have hfirsts : pairFirsts (min t1 t2) (max t1 t2)
      (log ++ [(min t1 t2, max t1 t2, (handleDrawTeamSelection gs.draw_trackers t1 t2).1)]) =
      pairFirsts (min t1 t2) (max t1 t2) log ++
        [(handleDrawTeamSelection gs.draw_trackers t1 t2).1] := by
    rw [pairFirsts, pairEvents_append, pairEvents_single_self, List.map_append]
    rfl
  -- the team scheduled first at this event follows the alternation pattern,
  -- and the tracker after the event matches the parity of the new count
  have hpat : (handleDrawTeamSelection gs.draw_trackers t1 t2).1 =
      (if pairCount (min t1 t2) (max t1 t2) log % 2 = 0 then min t1 t2 else max t1 t2) := by
    cases hf : findTracker gs.draw_trackers t1 t2 with
    | none =>
        have hold := h.nextv _ _ hlh
        rw [← findTracker_minmax, hf] at hold
        have hk0 : pairCount (min t1 t2) (max t1 t2) log = 0 :=
          pairNextVal_zero_of_none _ _ _ (by simpa using hold)
        rw [hk0, hds_first_of_none _ _ _ hf]
        simp
    | some dt =>
        have hold := h.nextv _ _ hlh
        rw [← findTracker_minmax, hf] at hold
        replace hold : some dt.nextToPlay =
            pairNextVal (min t1 t2) (max t1 t2) (pairCount (min t1 t2) (max t1 t2) log) := hold
        have hk0 : pairCount (min t1 t2) (max t1 t2) log ≠ 0 := by
          intro h0
          rw [h0] at hold
          simp [pairNextVal] at hold
        rw [pairNextVal, if_neg hk0] at hold
        have hpv := Option.some.inj hold
        rw [hds_first_of_some _ _ _ _ hf, hpv]
        rcases Nat.mod_two_eq_zero_or_one (pairCount (min t1 t2) (max t1 t2) log) with hm | hm <;>
          simp [hm]
  have hnext2 : (findTracker (handleDrawTeamSelection gs.draw_trackers t1 t2).2
        (min t1 t2) (max t1 t2)).map (fun dt => dt.nextToPlay) =
      pairNextVal (min t1 t2) (max t1 t2) (pairCount (min t1 t2) (max t1 t2) log + 1) := by
    cases hf : findTracker gs.draw_trackers t1 t2 with
    | none =>
        have hold := h.nextv _ _ hlh
        rw [← findTracker_minmax, hf] at hold
        have hk0 : pairCount (min t1 t2) (max t1 t2) log = 0 :=
          pairNextVal_zero_of_none _ _ _ (by simpa using hold)
        rw [hk0, ← findTracker_minmax, findTracker_hds_self_none _ _ _ hf]
        simp [pairNextVal]
    | some dt =>
        have hold := h.nextv _ _ hlh
        rw [← findTracker_minmax, hf] at hold
        replace hold : some dt.nextToPlay =
            pairNextVal (min t1 t2) (max t1 t2) (pairCount (min t1 t2) (max t1 t2) log) := hold
        have hk0 : pairCount (min t1 t2) (max t1 t2) log ≠ 0 := by
          intro h0
          rw [h0] at hold
          simp [pairNextVal] at hold
        rw [pairNextVal, if_neg hk0] at hold
        have hpv := Option.some.inj hold
        have hlt := (h.tracker_wf dt (findTracker_mem _ _ _ _ hf).1).1
        obtain ⟨hk1, hk2⟩ := findTracker_canonical_key _ _ _ _ hf hlt
        rw [← findTracker_minmax, findTracker_hds_self_some _ _ _ _ hf]
        show some (toggleTracker dt).nextToPlay =
          pairNextVal (min t1 t2) (max t1 t2) (pairCount (min t1 t2) (max t1 t2) log + 1)
        rw [pairNextVal, if_neg (Nat.succ_ne_zero _)]
        congr 1
        show (if dt.nextToPlay = dt.team1 then dt.team2 else dt.team1) = _
        rw [hk1, hk2, hpv]
        rcases Nat.mod_two_eq_zero_or_one (pairCount (min t1 t2) (max t1 t2) log) with hm | hm
        · rw [hm]
          have h1 : (pairCount (min t1 t2) (max t1 t2) log + 1) % 2 = 1 := by omega
          rw [h1]
          simp
        · rw [hm]
          have h1 : (pairCount (min t1 t2) (max t1 t2) log + 1) % 2 = 0 := by omega
          rw [h1]
          rw [if_neg (fun hx => (Nat.ne_of_lt hlh) hx.symm)]
          simp [Nat.ne_of_lt hlh]
  rw [recordResult_draw gs t1 t2 hcm]
  refine ⟨?_, ?_, ?_, ?_, ?_, ?_, ?_, ?_⟩
  · -- teams_nodup
    dsimp only [teamsOf, matchTeams]
    rw [List.append_nil]
    have hperm := List.Perm.append_left gs.waiting_queue hpair_perm
    rw [← hq2] at hperm
    exact hperm.nodup_iff.mpr h.teams_nodup
  · -- teams_sub
    intro t ht
    dsimp only [teamsOf, matchTeams] at ht
    rw [List.append_nil] at ht
    have hperm := List.Perm.append_left gs.waiting_queue hpair_perm
    rw [← hq2] at hperm
    exact h.teams_sub t (hperm.subset ht)
  · -- tracker_wf
    intro dt hdt
    dsimp only at hdt
    rcases hds_mem _ _ _ dt hdt with hx | ⟨dt0, hdt0, rfl⟩ | rfl
    · exact h.tracker_wf dt hx
    · have hw := h.tracker_wf dt0 hdt0
      exact ⟨hw.1, hw.2.1, hw.2.2.1, (toggleTracker_fields dt0).2.2⟩
    · refine ⟨hlh, ?_, ?_, Or.inr rfl⟩
      · rcases min_choice t1 t2 with hm | hm <;> rw [hm]
        · exact ht1n
        · exact ht2n
      · rcases max_choice t1 t2 with hm | hm <;> rw [hm]
        · exact ht1n
        · exact ht2n
  · -- keys_nodup
    dsimp only
    rw [hds_keys]
    split
    case isTrue hf =>
      refine List.Nodup.append h.keys_nodup (List.nodup_singleton _) ?_
      intro x hx1 hx2
      simp only [List.mem_singleton] at hx2
      subst hx2
      obtain ⟨dt, hdt, hkey⟩ := List.mem_map.mp hx1
      have hk1 : dt.team1 = min t1 t2 := congrArg Prod.fst hkey
      have hk2 : dt.team2 = max t1 t2 := congrArg Prod.snd hkey
      have hmt := matches_of_key_minmax dt t1 t2 hk1 hk2
      rw [findTracker_eq_none] at hf
      rw [hf dt hdt] at hmt
      exact Bool.noConfusion hmt
    case isFalse hf => exact h.keys_nodup
  · -- hist_len
    dsimp only
    simp [h.hist_len]
  · -- hist_nums
    dsimp only
    rw [List.map_append, h.hist_nums, teamIds_succ]
    rfl
  · -- alt
    intro a b hab
    by_cases hkey : a = min t1 t2 ∧ b = max t1 t2
    · obtain ⟨rfl, rfl⟩ := hkey
      rw [hfirsts, hcount, altFirsts_succ, h.alt _ _ hab, hpat]
    · have hfilter : pairEvents a b
          (log ++ [(min t1 t2, max t1 t2, (handleDrawTeamSelection gs.draw_trackers t1 t2).1)]) =
          pairEvents a b log := by
        rw [pairEvents_append,
          pairEvents_single_other _ _ _ _ _ (fun hx => hkey ⟨hx.1.symm, hx.2.symm⟩),
          List.append_nil]
      rw [pairFirsts, hfilter, pairCount, hfilter]
      exact h.alt a b hab
  · -- nextv
    intro a b hab
    dsimp only
    by_cases hkey : a = min t1 t2 ∧ b = max t1 t2
    · obtain ⟨rfl, rfl⟩ := hkey
      rw [hcount]
      exact hnext2
    · have hfilter : pairEvents a b
          (log ++ [(min t1 t2, max t1 t2, (handleDrawTeamSelection gs.draw_trackers t1 t2).1)]) =
          pairEvents a b log := by
        rw [pairEvents_append,
          pairEvents_single_other _ _ _ _ _ (fun hx => hkey ⟨hx.1.symm, hx.2.symm⟩),
          List.append_nil]
      rw [pairCount, hfilter, findTracker_hds_frame]
      · exact h.nextv a b hab
      · rw [min_eq_left (le_of_lt hab), max_eq_right (le_of_lt hab)]
        intro hx
        have hxa : a = min t1 t2 := congrArg Prod.fst hx
        have hxb : b = max t1 t2 := congrArg Prod.snd hx
        exact hkey ⟨hxa, hxb⟩

end FootballRotation

namespace FootballRotation

/-- Preservation of the invariant by any single operation. -/
lemma inv_step (n : Nat) (gs : GameState) (log : List (Nat × Nat × Nat)) (op : Op)
    (h : Inv n gs log) : Inv n (applyOp gs op) (log ++ drawEvents gs op) := by
  cases op with
  | draw =>
      rw [show drawEvents gs Op.draw = [] from rfl, List.append_nil]
      match hq : gs.waiting_queue with
      | [] =>
          have hid : applyOp gs Op.draw = gs := by
            simp [applyOp, getNextMatch, hq]
          rw [hid]
          exact h
      | [t] =>
          have hid : applyOp gs Op.draw = gs := by
            simp [applyOp, getNextMatch, hq]
          rw [hid]
          exact h
      | t1 :: t2 :: rest =>
          have hgs2 : applyOp gs Op.draw =
              { gs with current_match := some (t1, t2), waiting_queue := rest } := by
            simp [applyOp, getNextMatch, hq]
          rw [hgs2]
          have holdnodup : (t1 :: t2 :: rest).Nodup := by
            have hx := h.teams_nodup
            rw [teamsOf, hq] at hx
            exact hx.of_append_left
          have hperm : (rest ++ [t1, t2]).Perm (t1 :: t2 :: rest) :=
            List.perm_append_comm
          refine ⟨?_, ?_, h.tracker_wf, h.keys_nodup, h.hist_len, h.hist_nums, h.alt, h.nextv⟩
          · dsimp only [teamsOf, matchTeams]
            exact hperm.nodup_iff.mpr holdnodup
          · intro t ht
            dsimp only [teamsOf, matchTeams] at ht
            have ht2 : t ∈ t1 :: t2 :: rest := hperm.subset ht
            apply h.teams_sub t
            rw [teamsOf, hq]
            exact List.mem_append_left _ ht2
  | record r =>
      cases hcm : gs.current_match with
      | none =>
          have h1 : applyOp gs (Op.record r) = gs := recordResult_no_match gs r hcm
          have h2 : drawEvents gs (Op.record r) = [] := by
            cases r <;> simp [drawEvents, hcm]
          rw [h1, h2, List.append_nil]
          exact h
      | some p =>
          obtain ⟨t1, t2⟩ := p
          have hq2 : teamsOf gs = gs.waiting_queue ++ [t1, t2] := by
            rw [teamsOf, hcm]
            rfl
          cases r with
          | team1_win =>
              rw [show drawEvents gs (Op.record MatchResult.team1_win) = [] from rfl,
                List.append_nil,
                show applyOp gs (Op.record MatchResult.team1_win) = _ from
                  recordResult_team1_win gs t1 t2 hcm]
              have hperm : (t1 :: (gs.waiting_queue ++ [t2])).Perm (teamsOf gs) := by
                rw [hq2]
                exact List.perm_middle.symm
              refine ⟨?_, ?_, h.tracker_wf, h.keys_nodup, ?_, ?_, h.alt, h.nextv⟩
              · dsimp only [teamsOf, matchTeams]
                rw [List.append_nil]
                exact hperm.nodup_iff.mpr h.teams_nodup
              · intro t ht
                dsimp only [teamsOf, matchTeams] at ht
                rw [List.append_nil] at ht
                exact h.teams_sub t (hperm.subset ht)
              · dsimp only
                simp [h.hist_len]
              · dsimp only
                rw [List.map_append, h.hist_nums, teamIds_succ]
                rfl
          | team2_win =>
              rw [show drawEvents gs (Op.record MatchResult.team2_win) = [] from rfl,
                List.append_nil,
                show applyOp gs (Op.record MatchResult.team2_win) = _ from
                  recordResult_team2_win gs t1 t2 hcm]
              have hperm : (t2 :: (gs.waiting_queue ++ [t1])).Perm (teamsOf gs) := by
                rw [hq2]
                exact List.perm_middle.symm.trans
                  (List.Perm.append_left gs.waiting_queue (List.Perm.swap t1 t2 []))
              refine ⟨?_, ?_, h.tracker_wf, h.keys_nodup, ?_, ?_, h.alt, h.nextv⟩
              · dsimp only [teamsOf, matchTeams]
                rw [List.append_nil]
                exact hperm.nodup_iff.mpr h.teams_nodup
              · intro t ht
                dsimp only [teamsOf, matchTeams] at ht
                rw [List.append_nil] at ht
                exact h.teams_sub t (hperm.subset ht)
              · dsimp only
                simp [h.hist_len]
              · dsimp only
                rw [List.map_append, h.hist_nums, teamIds_succ]
                rfl
          | draw =>
              have h2 : drawEvents gs (Op.record MatchResult.draw) =
                  [(min t1 t2, max t1 t2,
                    (handleDrawTeamSelection gs.draw_trackers t1 t2).1)] := by
                simp [drawEvents, hcm]
              rw [h2]
              exact inv_step_record_draw n gs log t1 t2 h hcm

/-- Preservation of the invariant along a whole run. -/
lemma inv_run (n : Nat) :
    ∀ (ops : List Op) (gs : GameState) (log : List (Nat × Nat × Nat)),
      Inv n gs log → Inv n (runOps gs ops) (log ++ runLog gs ops) := by
  intro ops
  induction ops with
  | nil =>
      intro gs log h
      rw [runOps, runLog, List.append_nil]
      exact h
  | cons op ops ih =>
      intro gs log h
      rw [runOps, runLog, ← List.append_assoc]
      exact ih (applyOp gs op) (log ++ drawEvents gs op) (inv_step n gs log op h)

/-- The invariant for a run from a freshly initialized session. -/
lemma inv_run_initial (n : Nat) (ops : List Op) :
    Inv n (runOps (initialState n) ops) (runLog (initialState n) ops) := by
  have h := inv_run n ops (initialState n) [] (inv_initial n)
  rwa [List.nil_append] at h

end FootballRotation

namespace FootballRotation

/-- The team scheduled first after a draw is one of the two drawn teams,
provided every tracker's `nextToPlay` is one of its own two teams. -/
lemma hds_first_mem_pair (ts : List DrawTracker) (t1 t2 : Nat)
    (hwf : ∀ dt ∈ ts, dt.nextToPlay = dt.team1 ∨ dt.nextToPlay = dt.team2) :
    (handleDrawTeamSelection ts t1 t2).1 = t1 ∨ (handleDrawTeamSelection ts t1 t2).1 = t2 := by
  cases hf : findTracker ts t1 t2 with
  | none =>
      rw [hds_first_of_none _ _ _ hf]
      exact min_choice t1 t2
  | some dt =>
      rw [hds_first_of_some _ _ _ _ hf]
      have hw := hwf dt (findTracker_mem _ _ _ _ hf).1
      have hmt := (findTracker_mem _ _ _ _ hf).2
      have hm2 : (dt.team1 = t1 ∧ dt.team2 = t2) ∨ (dt.team1 = t2 ∧ dt.team2 = t1) := by
        simpa only [trackerMatches, Bool.or_eq_true, Bool.and_eq_true, beq_iff_eq] using hmt
      rcases hm2 with ⟨e1, e2⟩ | ⟨e1, e2⟩
      · rcases hw with hp | hp
        · exact Or.inl (by rw [hp, e1])
        · exact Or.inr (by rw [hp, e2])
      · rcases hw with hp | hp
        · exact Or.inr (by rw [hp, e1])
        · exact Or.inl (by rw [hp, e2])

/-- `recordResult` permutes the observable teams: the two teams of the
current match move into the queue, nothing appears or disappears. -/
lemma recordResult_teams_perm (gs : GameState) (r : MatchResult)
    (hwf : ∀ dt ∈ gs.draw_trackers, dt.nextToPlay = dt.team1 ∨ dt.nextToPlay = dt.team2)
    (hnd : (teamsOf gs).Nodup) :
    (teamsOf (recordResult gs r)).Perm (teamsOf gs) := by
  cases hcm : gs.current_match with
  | none =>
      rw [recordResult_no_match gs r hcm]
  | some p =>
      obtain ⟨t1, t2⟩ := p
      have hq2 : teamsOf gs = gs.waiting_queue ++ [t1, t2] := by
        rw [teamsOf, hcm]
        rfl
      have hne : t1 ≠ t2 := by
        rw [hq2] at hnd
        have hy := hnd.of_append_right
        simp at hy
        exact hy
      cases r with
      | team1_win =>
          rw [recordResult_team1_win gs t1 t2 hcm, hq2]
          dsimp only [teamsOf, matchTeams]
          rw [List.append_nil]
          exact List.perm_middle.symm
      | team2_win =>
          rw [recordResult_team2_win gs t1 t2 hcm, hq2]
          dsimp only [teamsOf, matchTeams]
          rw [List.append_nil]
          exact List.perm_middle.symm.trans
            (List.Perm.append_left gs.waiting_queue (List.Perm.swap t1 t2 []))
      | draw =>
          rw [recordResult_draw gs t1 t2 hcm, hq2]
          dsimp only [teamsOf, matchTeams]
          rw [List.append_nil]
          refine List.Perm.append_left gs.waiting_queue ?_
          rcases hds_first_mem_pair gs.draw_trackers t1 t2 hwf with hf1 | hf1
          · rw [hf1, if_pos rfl]
          · rw [hf1, if_neg (fun hx => hne hx.symm)]
            exact List.Perm.swap t1 t2 []

/-- A draw performed with no match in progress permutes the observable
teams: the first two queued teams become the current match. -/
lemma applyOp_draw_guarded_perm (gs : GameState) (hcm : gs.current_match = none) :
    (teamsOf (applyOp gs Op.draw)).Perm (teamsOf gs) := by
  match hq : gs.waiting_queue with
  | [] =>
      rw [show applyOp gs Op.draw = gs by simp [applyOp, getNextMatch, hq]]
  | [t] =>
      rw [show applyOp gs Op.draw = gs by simp [applyOp, getNextMatch, hq]]
  | t1 :: t2 :: rest =>
      rw [show applyOp gs Op.draw =
          { gs with current_match := some (t1, t2), waiting_queue := rest } by
        simp [applyOp, getNextMatch, hq]]
      have hr : teamsOf gs = t1 :: t2 :: rest := by
        simp [teamsOf, hcm, hq, matchTeams]
      rw [hr]
      dsimp only [teamsOf, matchTeams]
      exact List.perm_append_comm

/-- Along a guarded run (draws only with no match in progress), the
observable teams are a permutation of the initial ones. -/
lemma guarded_run_perm (n : Nat) :
    ∀ (ops : List Op) (gs : GameState) (log : List (Nat × Nat × Nat)),
      Inv n gs log → guardedRun gs ops = true →
      (teamsOf (runOps gs ops)).Perm (teamsOf gs) := by
  intro ops
  induction ops with
  | nil =>
      intro gs log h hg
      rw [runOps]
  | cons op ops ih =>
      intro gs log h hg
      rw [guardedRun, Bool.and_eq_true] at hg
      obtain ⟨h1, h2⟩ := hg
      have hstep : (teamsOf (applyOp gs op)).Perm (teamsOf gs) := by
        cases op with
        | draw =>
            have hcm : gs.current_match = none := by
              simpa [opAllowed, Option.isNone_iff_eq_none] using h1
            exact applyOp_draw_guarded_perm gs hcm
        | record r =>
            exact recordResult_teams_perm gs r
              (fun dt hdt => (h.tracker_wf dt hdt).2.2.2) h.teams_nodup
      rw [runOps]
      exact (ih (applyOp gs op) (log ++ drawEvents gs op) (inv_step n gs log op h) h2).trans hstep

end FootballRotation

namespace FootballRotation

/-- A fresh session of 3 teams as produced by `startNewGame (some 3)`. -/
def gsThree : GameState :=
  { total_teams := 3, current_match := none, waiting_queue := [1, 2, 3]
    match_history := [], match_counter := 0, draw_trackers := [] }

/-- C1 counterexample: from a fresh 4-team session, calling
`getNextMatch` twice in a row (the second call while match (1, 2) is
still in progress) loses teams 1 and 2: the queue plus current-match
multiset is no longer the full team set.  The unguarded second call is
possible because the code does not check `current_match`. -/
theorem c1_team_conservation_cex :
    startNewGame (some 4) = Except.ok gsIdle ∧
    (teamsOf (runOps gsIdle [Op.draw, Op.draw]) : Multiset Nat) ≠
      (teamIds gsIdle.total_teams : Multiset Nat) := by
  refine ⟨rfl, ?_⟩
  decide

/-- C1 (amended): after any sequence of `getNextMatch`/`recordResult`
calls from a freshly initialized session in which `getNextMatch` is
only invoked while no match is in progress (which is how the UI invokes
it — the draw button is only rendered when `current_match` is null),
the multiset of `waiting_queue` plus the current-match teams equals
exactly the team set 1..total_teams, with no duplicates. -/
theorem c1_team_conservation (inp : Option Int) (g0 : GameState) (ops : List Op)
    (h0 : startNewGame inp = Except.ok g0) (hg : guardedRun g0 ops = true) :
    (teamsOf (runOps g0 ops) : Multiset Nat) =
      (teamIds g0.total_teams : Multiset Nat) ∧
    (teamsOf (runOps g0 ops)).Nodup := by
  obtain ⟨n, rfl⟩ : ∃ n, g0 = initialState n := ⟨_, startNewGame_ok_shape inp g0 h0⟩
  have hperm := guarded_run_perm n ops (initialState n) [] (inv_initial n) hg
  have hteams0 : teamsOf (initialState n) = teamIds n := by
    simp [initialState, teamsOf, matchTeams]
  rw [hteams0] at hperm
  constructor
  · rw [Multiset.coe_eq_coe]
    exact hperm
  · exact hperm.nodup_iff.mpr (teamIds_nodup n)

/-- Witness for C1 (amended): a 3-team session, one guarded draw and a
team1 win. -/
theorem c1_team_conservation_witness :
    ((teamsOf (runOps gsThree [Op.draw, Op.record MatchResult.team1_win]) : Multiset Nat) =
      (teamIds gsThree.total_teams : Multiset Nat)) ∧
    (teamsOf (runOps gsThree [Op.draw, Op.record MatchResult.team1_win])).Nodup :=
  c1_team_conservation (some 3) gsThree [Op.draw, Op.record MatchResult.team1_win]
    rfl (by decide)

/-- C3: for every run from a fresh session and every canonical pair
a < b, the recorded first-to-play teams for that pair form the strictly
alternating sequence a, b, a, b, ... (lower team first on the pair's
first draw); the pair's tracker is absent before the first draw and
afterwards holds, as `nextToPlay`, the higher team after an odd number
of draws of the pair and the lower one after an even number — i.e. it
toggles exactly once per draw event of the pair; and every tracker's
`nextToPlay` is one of its two stored team ids. -/
theorem c3_draw_alternation (inp : Option Int) (g0 : GameState) (ops : List Op)
    (a b : Nat) (h0 : startNewGame inp = Except.ok g0) (hab : a < b) :
    pairFirsts a b (runLog g0 ops) = altFirsts a b (pairCount a b (runLog g0 ops)) ∧
    (findTracker (runOps g0 ops).draw_trackers a b).map (fun dt => dt.nextToPlay) =
      pairNextVal a b (pairCount a b (runLog g0 ops)) ∧
    (∀ dt ∈ (runOps g0 ops).draw_trackers,
      dt.nextToPlay = dt.team1 ∨ dt.nextToPlay = dt.team2) := by
  obtain ⟨n, rfl⟩ : ∃ n, g0 = initialState n := ⟨_, startNewGame_ok_shape inp g0 h0⟩
  have hinv := inv_run_initial n ops
  exact ⟨hinv.alt a b hab, hinv.nextv a b hab,
    fun dt hdt => (hinv.tracker_wf dt hdt).2.2.2⟩

/-- Witness for C3: a 3-team session where the pair (1, 2) draws once. -/
theorem c3_draw_alternation_witness :
    (pairFirsts 1 2 (runLog gsThree [Op.draw, Op.record MatchResult.draw]) =
      altFirsts 1 2 (pairCount 1 2 (runLog gsThree [Op.draw, Op.record MatchResult.draw]))) ∧
    ((findTracker (runOps gsThree [Op.draw, Op.record MatchResult.draw]).draw_trackers 1 2).map
        (fun dt => dt.nextToPlay) =
      pairNextVal 1 2 (pairCount 1 2 (runLog gsThree [Op.draw, Op.record MatchResult.draw]))) ∧
    (∀ dt ∈ (runOps gsThree [Op.draw, Op.record MatchResult.draw]).draw_trackers,
      dt.nextToPlay = dt.team1 ∨ dt.nextToPlay = dt.team2) :=
  c3_draw_alternation (some 3) gsThree [Op.draw, Op.record MatchResult.draw] 1 2
    rfl (by decide)

/-- C6: in every reachable state the history length equals the match
counter and the `match_number` fields are exactly 1..counter in order
(`teamIds k` is the list [1, ..., k]); and each `recordResult` with a
match in progress appends exactly one record carrying
`match_number = match_counter + 1` and the original team1/team2 labels
with the given result, clears the current match and increments the
counter by 1. -/
theorem c6_history_matches_counter :
    (∀ (inp : Option Int) (g0 : GameState) (ops : List Op),
      startNewGame inp = Except.ok g0 →
      (runOps g0 ops).match_history.length = (runOps g0 ops).match_counter ∧
      (runOps g0 ops).match_history.map (fun m => m.match_number) =
        teamIds (runOps g0 ops).match_counter) ∧
    (∀ (gs : GameState) (t1 t2 : Nat) (r : MatchResult),
      gs.current_match = some (t1, t2) →
      (recordResult gs r).match_history =
        gs.match_history ++
          [{ match_number := gs.match_counter + 1, team1 := t1, team2 := t2
             result := some r }] ∧
      (recordResult gs r).current_match = none ∧
      (recordResult gs r).match_counter = gs.match_counter + 1) := by
  constructor
  · intro inp g0 ops h0
    obtain ⟨n, rfl⟩ : ∃ n, g0 = initialState n := ⟨_, startNewGame_ok_shape inp g0 h0⟩
    have hinv := inv_run_initial n ops
    exact ⟨hinv.hist_len, hinv.hist_nums⟩
  · intro gs t1 t2 r hcm
    cases r with
    | team1_win =>
        rw [recordResult_team1_win gs t1 t2 hcm]
        exact ⟨rfl, rfl, rfl⟩
    | team2_win =>
        rw [recordResult_team2_win gs t1 t2 hcm]
        exact ⟨rfl, rfl, rfl⟩
    | draw =>
        rw [recordResult_draw gs t1 t2 hcm]
        exact ⟨rfl, rfl, rfl⟩

/-- Witness for C6: a short run of a 3-team session, and one recorded
draw on the state with match (1, 2) in progress. -/
theorem c6_history_matches_counter_witness :
    ((runOps gsThree [Op.draw, Op.record MatchResult.team1_win]).match_history.length =
       (runOps gsThree [Op.draw, Op.record MatchResult.team1_win]).match_counter ∧
     (runOps gsThree [Op.draw, Op.record MatchResult.team1_win]).match_history.map
        (fun m => m.match_number) =
       teamIds (runOps gsThree [Op.draw, Op.record MatchResult.team1_win]).match_counter) ∧
    ((recordResult gsMid MatchResult.draw).match_history =
       gsMid.match_history ++
         [{ match_number := gsMid.match_counter + 1, team1 := 1, team2 := 2
            result := some MatchResult.draw }] ∧
     (recordResult gsMid MatchResult.draw).current_match = none ∧
     (recordResult gsMid MatchResult.draw).match_counter = gsMid.match_counter + 1) :=
  ⟨c6_history_matches_counter.1 (some 3) gsThree [Op.draw, Op.record MatchResult.team1_win] rfl,
   c6_history_matches_counter.2 gsMid 1 2 MatchResult.draw rfl⟩

/-- C9: in every reachable state, trackers are canonical (team1 <
team2), their team ids are teams of the session, and there is at most
one tracker per unordered pair (the canonical-key list has no
duplicates); moreover no operation ever removes a tracker: every
tracker survives each operation either intact or with only its
`nextToPlay` toggled. -/
theorem c9_tracker_table_wf :
    (∀ (inp : Option Int) (g0 : GameState) (ops : List Op),
      startNewGame inp = Except.ok g0 →
      (∀ dt ∈ (runOps g0 ops).draw_trackers,
        dt.team1 < dt.team2 ∧ dt.team1 ∈ teamIds g0.total_teams ∧
          dt.team2 ∈ teamIds g0.total_teams) ∧
      ((runOps g0 ops).draw_trackers.map (fun dt => (dt.team1, dt.team2))).Nodup) ∧
    (∀ (gs : GameState) (op : Op), ∀ dt ∈ gs.draw_trackers,
      dt ∈ (applyOp gs op).draw_trackers ∨
        toggleTracker dt ∈ (applyOp gs op).draw_trackers) := by
  constructor
  · intro inp g0 ops h0
    obtain ⟨n, rfl⟩ : ∃ n, g0 = initialState n := ⟨_, startNewGame_ok_shape inp g0 h0⟩
    have hinv := inv_run_initial n ops
    refine ⟨fun dt hdt => ?_, hinv.keys_nodup⟩
    have hw := hinv.tracker_wf dt hdt
    exact ⟨hw.1, hw.2.1, hw.2.2.1⟩
  · intro gs op dt hdt
    cases op with
    | draw =>
        left
        match hq : gs.waiting_queue with
        | [] => simpa [applyOp, getNextMatch, hq] using hdt
        | [t] => simpa [applyOp, getNextMatch, hq] using hdt
        | t1 :: t2 :: rest => simpa [applyOp, getNextMatch, hq] using hdt
    | record r =>
        cases hcm : gs.current_match with
        | none =>
            left
            rw [show applyOp gs (Op.record r) = gs from recordResult_no_match gs r hcm]
            exact hdt
        | some p =>
            obtain ⟨t1, t2⟩ := p
            cases r with
            | team1_win =>
                left
                rw [show applyOp gs (Op.record MatchResult.team1_win) = _ from
                  recordResult_team1_win gs t1 t2 hcm]
                exact hdt
            | team2_win =>
                left
                rw [show applyOp gs (Op.record MatchResult.team2_win) = _ from
                  recordResult_team2_win gs t1 t2 hcm]
                exact hdt
            | draw =>
                rw [show applyOp gs (Op.record MatchResult.draw) = _ from
                  recordResult_draw gs t1 t2 hcm]
                exact hds_mem_rev gs.draw_trackers t1 t2 dt hdt

/-- Witness for C9: a run of a 3-team session with one draw, and the
survival of the tracker (1, 3, next 3) across a recorded draw. -/
theorem c9_tracker_table_wf_witness :
    ((∀ dt ∈ (runOps gsThree [Op.draw, Op.record MatchResult.draw]).draw_trackers,
        dt.team1 < dt.team2 ∧ dt.team1 ∈ teamIds gsThree.total_teams ∧
          dt.team2 ∈ teamIds gsThree.total_teams) ∧
     ((runOps gsThree [Op.draw, Op.record MatchResult.draw]).draw_trackers.map
        (fun dt => (dt.team1, dt.team2))).Nodup) ∧
    (({ team1 := 1, team2 := 3, nextToPlay := 3 } : DrawTracker) ∈
        (applyOp gsTracked (Op.record MatchResult.draw)).draw_trackers ∨
      toggleTracker { team1 := 1, team2 := 3, nextToPlay := 3 } ∈
        (applyOp gsTracked (Op.record MatchResult.draw)).draw_trackers) :=
  ⟨c9_tracker_table_wf.1 (some 3) gsThree [Op.draw, Op.record MatchResult.draw] rfl,
   c9_tracker_table_wf.2 gsTracked (Op.record MatchResult.draw)
     { team1 := 1, team2 := 3, nextToPlay := 3 } (by decide)⟩

end FootballRotation
